import Mathlib

/-
  Verification of the monad-example repository (src/example.ts and its
  compiled form src/unnamed/part_000).

  The repository defines two combinators:
  - a Logged combinator: type Logged<T> = { value: T; logs: string[] },
    with returnLogged and bindLogged;
  - a Maybe combinator: type Maybe<T> = T | undefined,
    with returnMaybe and bindMaybe,
  together with sample step functions (square, double, divide, whatever)
  and demonstration values (y, y2, z, z2).

  JS numbers are modelled as rationals (the demonstrations only use exact
  arithmetic: integer squares/doubles and the exact divisions 10/5 and
  additions, so no floating-point rounding occurs on any value reached).
  The Logged demonstrations use only integer values, so the integer type
  is used there to make the template-literal strings (toString) match the
  JS output exactly.

  For the typed view, the union T | undefined at a payload type T that
  does not itself contain undefined (as in the demonstrations, where
  T = number) is exactly Option T: a JS value of that union is either
  undefined (none) or a T (some).  The untyped runtime view, needed where
  the untagged-union nature of Maybe matters (the behaviour of the lift
  operations under repeated application), is modelled separately below by
  the inductive type JSVal of JS runtime values.
-/

/-- type Logged<T> = { value: T; logs: string[] } (src/example.ts lines 27-30). -/
structure Logged (T : Type) where
  value : T
  logs : List String
deriving DecidableEq, Repr

/-- type Maybe<T> = T | undefined (src/example.ts line 125), at a payload
type that does not contain undefined: the union is then exactly Option. -/
abbrev Maybe (T : Type) := Option T

/-- const returnLogged = (value) => ({ value, logs: [] })
(src/example.ts lines 34-37). -/
def returnLogged {T : Type} (value : T) : Logged T :=
  { value := value, logs := [] }

/-- const bindLogged = (wrapped, fn) => { const next = fn(wrapped.value);
return { value: next.value, logs: wrapped.logs.concat(next.logs) }; }
(src/example.ts lines 57-67). -/
def bindLogged {T : Type} (wrapped : Logged T) (fn : T → Logged T) : Logged T :=
  let next := fn wrapped.value
  { value := next.value, logs := wrapped.logs ++ next.logs }

/-- const square = (x) => ({ value: x * x, logs: [`squared ${x}`] })
(src/example.ts lines 71-74). -/
def square (x : ℤ) : Logged ℤ :=
  { value := x * x, logs := ["squared " ++ toString x] }

/-- const double = (x) => ({ value: x * 2, logs: [`doubled ${x}`] })
(src/example.ts lines 76-80). -/
def double (x : ℤ) : Logged ℤ :=
  { value := x * 2, logs := ["doubled " ++ toString x] }

/-- const y = bindLogged(bindLogged(returnLogged(5), square), double)
(src/example.ts line 89). -/
def y : Logged ℤ :=
  bindLogged (bindLogged (returnLogged 5) square) double

/-- const y2 = [square, double].reduce((loggedX, fn) => bindLogged(loggedX, fn),
returnLogged(5)) (src/example.ts lines 108-114).  Array.prototype.reduce with
an initial accumulator is a left fold. -/
def y2 : Logged ℤ :=
  [square, double].foldl (fun loggedX fn => bindLogged loggedX fn) (returnLogged 5)

/-- const returnMaybe = (value) => value (src/example.ts line 128): the
identity coercion of a payload value into the union T | undefined, which
in the Option view of the union is some. -/
def returnMaybe {T : Type} (value : T) : Maybe T :=
  some value

/-- const bindMaybe = (wrapped, fn) => wrapped !== undefined ? fn(wrapped)
: undefined (src/example.ts lines 134-138). -/
def bindMaybe {T : Type} (wrapped : Maybe T) (fn : T → Maybe T) : Maybe T :=
  match wrapped with
  | some v => fn v
  | none => none

/-- const divide = (divisor) => (x) => divisor !== 0 ? x / divisor : undefined
(src/example.ts lines 150-154). -/
def divide (divisor : ℚ) : ℚ → Maybe ℚ := fun x =>
  if divisor ≠ 0 then some (x / divisor) else none

/-- const whatever = (x) => x + 42 (src/example.ts line 158): a total step,
its plain-number result lands in the present side of the union. -/
def whatever (x : ℚ) : Maybe ℚ :=
  some (x + 42)

/-- const z = bindMaybe(bindMaybe(returnMaybe(10), divide(0)), whatever)
(src/example.ts line 161). -/
def z : Maybe ℚ :=
  bindMaybe (bindMaybe (returnMaybe 10) (divide 0)) whatever

/-- const z2 = [divide(0), whatever].reduce((maybeX, fn) => bindMaybe(maybeX, fn),
returnMaybe(10)) (src/example.ts lines 176-179). -/
def z2 : Maybe ℚ :=
  [divide 0, whatever].foldl (fun maybeX fn => bindMaybe maybeX fn) (returnMaybe 10)

/-- Manual nested application of bindLogged one step at a time, left to
right: chainLoggedNested c [f1, ..., fn] is
bindLogged( ... bindLogged(bindLogged(c, f1), f2) ..., fn). -/
def chainLoggedNested {T : Type} (c : Logged T) : List (T → Logged T) → Logged T
  | [] => c
  | f :: fs => chainLoggedNested (bindLogged c f) fs

/-- Manual nested application of bindMaybe one step at a time, left to
right: chainMaybeNested c [f1, ..., fn] is
bindMaybe( ... bindMaybe(bindMaybe(c, f1), f2) ..., fn). -/
def chainMaybeNested {T : Type} (c : Maybe T) : List (T → Maybe T) → Maybe T
  | [] => c
  | f :: fs => chainMaybeNested (bindMaybe c f) fs

/-
  The untyped runtime view.  The compiled JS (src/unnamed/part_000) runs
  on dynamically typed values; the values this program ever constructs are
  numbers, strings, undefined, and Logged record objects whose logs field
  is an array of strings.  returnMaybe is the runtime identity function;
  returnLogged allocates a fresh record around whatever argument it is
  given, wrapped again or not.
-/

/-- JS runtime values reachable in this program: numbers, strings,
undefined, and the { value, logs } record objects built by the Logged
combinator. -/
inductive JSVal : Type where
  | num (q : ℚ)
  | str (s : String)
  | undef
  | loggedObj (value : JSVal) (logs : List String)
deriving DecidableEq, Repr

/-- const returnLogged = (value) => ({ value, logs: [] }) at runtime
(src/unnamed/part_000 lines 22-25): wraps any argument, already wrapped
or not, in a fresh one-field-deeper record. -/
def returnLoggedJS (value : JSVal) : JSVal :=
  JSVal.loggedObj value []

/-- const returnMaybe = (value) => value at runtime
(src/unnamed/part_000 line 89): the identity function. -/
def returnMaybeJS (value : JSVal) : JSVal :=
  value

/- ===================== helper lemmas ===================== -/

lemma foldl_bindLogged_eq_nested {T : Type} (fs : List (T → Logged T)) :
    ∀ c : Logged T,
      fs.foldl (fun loggedX fn => bindLogged loggedX fn) c = chainLoggedNested c fs := by
  induction fs with
  | nil => intro c; rfl
  | cons f fs ih =>
    intro c
    simpa [chainLoggedNested] using ih (bindLogged c f)

lemma foldl_bindMaybe_eq_nested {T : Type} (fs : List (T → Maybe T)) :
    ∀ c : Maybe T,
      fs.foldl (fun maybeX fn => bindMaybe maybeX fn) c = chainMaybeNested c fs := by
  induction fs with
  | nil => intro c; rfl
  | cons f fs ih =>
    intro c
    simpa [chainMaybeNested] using ih (bindMaybe c f)

lemma foldl_bindMaybe_none {T : Type} (fs : List (T → Maybe T)) :
    fs.foldl (fun maybeX fn => bindMaybe maybeX fn) (none : Maybe T) = none := by
  induction fs with
  | nil => rfl
  | cons f fs ih => simpa [bindMaybe] using ih

lemma loggedObj_ne_self (v : JSVal) (l : List String) : JSVal.loggedObj v l ≠ v := by
  induction v generalizing l with
  | num q => simp
  | str s => simp
  | undef => simp
  | loggedObj w m ih =>
    intro h
    obtain ⟨hw, hm⟩ := JSVal.loggedObj.inj h
    exact ih m hw

/- ===================== claims ===================== -/

/-- Claim C1: for every value v of the payload type T, returnMaybe yields
a present container holding v; the absence marker (undefined, the none
side of the union) differs from every payload value, including the falsy
payload 0. -/
theorem c1_returnMaybe_always_present :
    (∀ (T : Type) (v : T), returnMaybe v = some v ∧ returnMaybe v ≠ (none : Maybe T)) ∧
      returnMaybe (0 : ℚ) ≠ (none : Maybe ℚ) := by
  constructor
  · intro T v
    exact ⟨rfl, by simp [returnMaybe]⟩
  · simp [returnMaybe]

/-- Claim C2, counterexample: applying returnLogged twice to the runtime
number 5 does not equal applying it once — the second application wraps
the already-wrapped record in another layer. -/
theorem c2_counterexample :
    returnLoggedJS (returnLoggedJS (JSVal.num 5)) ≠ returnLoggedJS (JSVal.num 5) := by
  intro h
  obtain ⟨hw, hm⟩ := JSVal.loggedObj.inj h
  exact loggedObj_ne_self (JSVal.num 5) [] hw

/-- Claim C2, amended: repeated application of lift never double-wraps for
returnMaybe — it is the runtime identity on the untagged union, so n
consecutive applications (n ≥ 1) equal a single one — but returnLogged
adds a fresh wrapping layer on every application, so two consecutive
applications differ from one. -/
theorem c2_lift_iteration :
    (∀ (v : JSVal) (n : ℕ), 1 ≤ n → returnMaybeJS^[n] v = returnMaybeJS v) ∧
      ∀ v : JSVal, returnLoggedJS (returnLoggedJS v) ≠ returnLoggedJS v := by
  constructor
  · intro v n _
    have hid : ∀ m : ℕ, returnMaybeJS^[m] v = v := by
      intro m
      induction m with
      | zero => rfl
      | succ k ih => simpa [Function.iterate_succ_apply, returnMaybeJS] using ih
    simpa [returnMaybeJS] using hid n
  · intro v h
    obtain ⟨hw, hm⟩ := JSVal.loggedObj.inj h
    exact loggedObj_ne_self v [] hw

/-- Witness for c2_lift_iteration at v = 5, n = 2. -/
theorem c2_lift_iteration_witness :
    1 ≤ 2 ∧ returnMaybeJS^[2] (JSVal.num 5) = returnMaybeJS (JSVal.num 5) :=
  ⟨by decide, c2_lift_iteration.1 (JSVal.num 5) 2 (by decide)⟩

/-- Claim C3: for both combinators, folding the chain operation left to
right over an ordered list of step functions starting from lift(v) is
observably identical to the nested manual application, and in particular
the demonstration values y2 and z2 built by reduce equal their manually
nested counterparts y and z. -/
theorem c3_fold_eq_nested :
    (∀ (T : Type) (v : T) (fs : List (T → Logged T)),
        fs.foldl (fun loggedX fn => bindLogged loggedX fn) (returnLogged v) =
          chainLoggedNested (returnLogged v) fs) ∧
    (∀ (T : Type) (w : T) (gs : List (T → Maybe T)),
        gs.foldl (fun maybeX fn => bindMaybe maybeX fn) (returnMaybe w) =
          chainMaybeNested (returnMaybe w) gs) ∧
    y2 = y ∧ z2 = z := by
  refine ⟨fun T v fs => foldl_bindLogged_eq_nested fs (returnLogged v),
    fun T w gs => foldl_bindMaybe_eq_nested gs (returnMaybe w), rfl, rfl⟩

/-- Claim C4: absence is absorbing — folding bindMaybe over any list of
step functions from the absent container yields absent (independently of
the step functions, so none of them is consulted), and once the fold over
a prefix has become absent, appending any further steps leaves the result
absent. -/
theorem c4_absence_absorbing :
    (∀ (T : Type) (fs : List (T → Maybe T)),
        fs.foldl (fun maybeX fn => bindMaybe maybeX fn) (none : Maybe T) = none) ∧
    ∀ (T : Type) (init : Maybe T) (fs gs : List (T → Maybe T)),
      fs.foldl (fun maybeX fn => bindMaybe maybeX fn) init = none →
        (fs ++ gs).foldl (fun maybeX fn => bindMaybe maybeX fn) init = none := by
  refine ⟨fun T fs => foldl_bindMaybe_none fs, fun T init fs gs h => ?_⟩
  rw [List.foldl_append, h]
  exact foldl_bindMaybe_none gs

/-- Witness for c4_absence_absorbing: the z2 chain, whose first step
divide(0) yields absent, stays absent after appending whatever. -/
theorem c4_absence_absorbing_witness :
    [divide 0].foldl (fun maybeX fn => bindMaybe maybeX fn) (returnMaybe (10 : ℚ)) = none ∧
      ([divide 0] ++ [whatever]).foldl (fun maybeX fn => bindMaybe maybeX fn)
        (returnMaybe (10 : ℚ)) = none := by
  have h : [divide 0].foldl (fun maybeX fn => bindMaybe maybeX fn)
      (returnMaybe (10 : ℚ)) = none := by
    simp [bindMaybe, returnMaybe, divide]
  exact ⟨h, c4_absence_absorbing.2 ℚ (returnMaybe 10) [divide 0] [whatever] h⟩

/-- Claim C5: bindLogged produces the step result value and the prior logs
followed by the step logs, in that order; with two steps logging a then b
the combined log is exactly [a, b]. -/
theorem c5_bindLogged_spec :
    (∀ (T : Type) (c : Logged T) (f : T → Logged T),
        (bindLogged c f).value = (f c.value).value ∧
          (bindLogged c f).logs = c.logs ++ (f c.value).logs) ∧
    ∀ (T : Type) (v : T),
      (bindLogged (bindLogged (returnLogged v) (fun x => { value := x, logs := ["a"] }))
          (fun x => { value := x, logs := ["b"] })).logs = ["a", "b"] := by
  exact ⟨fun T c f => ⟨rfl, rfl⟩, fun T v => rfl⟩

/-- Claim C6: bindMaybe short-circuits on the absent container without
consulting the step function (the result is none for every f), and on a
present container holding v it returns exactly f v. -/
theorem c6_bindMaybe_spec :
    ∀ (T : Type) (f : T → Maybe T) (v : T),
      bindMaybe (none : Maybe T) f = none ∧ bindMaybe (some v) f = f v := by
  intro T f v
  exact ⟨rfl, rfl⟩

/-- Claim C7: divide d x is present holding x / d when the divisor d is
nonzero, and absent when d is zero. -/
theorem c7_divide_spec :
    ∀ d x : ℚ, (d ≠ 0 → divide d x = some (x / d)) ∧ (d = 0 → divide d x = none) := by
  intro d x
  constructor
  · intro h
    simp [divide, h]
  · intro h
    simp [divide, h]

/-- Witness for c7_divide_spec at divisor 5 and divisor 0, dividend 10. -/
theorem c7_divide_spec_witness :
    ((5 : ℚ) ≠ 0 ∧ divide 5 10 = some (10 / 5)) ∧
      ((0 : ℚ) = 0 ∧ divide 0 10 = none) :=
  ⟨⟨by norm_num, (c7_divide_spec 5 10).1 (by norm_num)⟩,
    ⟨rfl, (c7_divide_spec 0 10).2 rfl⟩⟩

/-- Claim C8: the Logged demonstration chain y has value 50 and logs
exactly [squared 5, doubled 25]; each log entry describes the input of
the step (double logs its input 25, not its output 50). -/
theorem c8_logged_demo :
    y.value = 50 ∧ y.logs = ["squared 5", "doubled 25"] ∧
      (double 25).logs = ["doubled " ++ toString (25 : ℤ)] := by
  refine ⟨rfl, ?_, rfl⟩
  rfl

/-- Claim C9: the Optional demonstration chain with divisor 0 is absent,
and the same chain with divisor 5 is present holding 10/5 + 42 = 44. -/
theorem c9_maybe_demo :
    z = none ∧
      bindMaybe (bindMaybe (returnMaybe (10 : ℚ)) (divide 5)) whatever = some 44 := by
  constructor
  · simp [z, bindMaybe, returnMaybe, divide]
  · norm_num [bindMaybe, returnMaybe, divide, whatever]

/-- Claim C10: left identity for the Logged combinator — binding a freshly
lifted value against f gives exactly f v, because the empty log of lift
prepends to the logs of f v without changing them. -/
theorem c10_left_identity :
    ∀ (T : Type) (v : T) (f : T → Logged T), bindLogged (returnLogged v) f = f v := by
  intro T v f
  rfl
